import Mathlib

/-!
Verification of the request-execution core of a typed transit-API client
(query-string canonicalization, URL signing, error taxonomy with credential
redaction, and the request manager's throttle/backoff/dedup policy).

The definitions below are a shallow embedding of the TypeScript source:
  * `buildQueryString`, `signRequest`, `buildSignedUrl`  (src/request.ts)
  * the `PTVError` hierarchy, `redactCredentials`, `redactBody`,
    `errorFromStatus`                                     (src/errors.ts)
  * `RequestManager`: `applyBackoff`, the response/exception handlers of
    `doRequest`, `waitForThrottle` timing, and the in-flight dedup map
    of `execute`                                          (src/request-manager.ts)

JavaScript machine integers are modelled as `Int`/`Nat` (all arithmetic in
range), strings as Lean `String` (the sources only use code points below
the surrogate range, where JS UTF-16 code-unit order and Unicode code-point
order agree), and JS objects as association lists with distinct keys.
All definitions are structurally recursive so that concrete instances
evaluate inside the kernel.
-/

/-! ### Character and string helpers -/

/-- The character `?`. -/
def qmarkChar : Char := Char.ofNat 63

/-- The character `&`. -/
def ampChar : Char := Char.ofNat 38

/-- The character `=`. -/
def eqChar : Char := Char.ofNat 61

/-- The double-quote character. -/
def quoteChar : Char := Char.ofNat 34

/-- The backslash character. -/
def backslashChar : Char := Char.ofNat 92

/-- The character `\x7b` (left curly brace). -/
def lcurlChar : Char := Char.ofNat 123

/-- The character `\x7d` (right curly brace). -/
def rcurlChar : Char := Char.ofNat 125

/-- The character `[`. -/
def lbrackChar : Char := Char.ofNat 91

/-- The character `]`. -/
def rbrackChar : Char := Char.ofNat 93

/-- Concatenate a list of strings with a separator, as JS `Array.join`. -/
def joinSep (sep : String) : List String → String
  | [] => ""
  | [x] => x
  | x :: xs => x ++ sep ++ joinSep sep xs

/-- Map then concatenate (structural `flatMap`). -/
def flatMapL (f : α → List β) : List α → List β
  | [] => []
  | x :: xs => f x ++ flatMapL f xs

/-- Insert into a sorted list (comparator `le`). -/
def insertLe (le : α → α → Bool) (x : α) : List α → List α
  | [] => [x]
  | y :: ys => if le y x then y :: insertLe le x ys else x :: y :: ys

/-- Insertion sort with a boolean comparator.  Models JS `Array.prototype.sort`
with the default (string, code-unit-wise lexicographic) comparison when
instantiated at `String` below; for the inputs sorted by the source the
comparison is a total order, so the result agrees with the JS sort. -/
def sortLe (le : α → α → Bool) : List α → List α
  | [] => []
  | x :: xs => insertLe le x (sortLe le xs)

/-- Code-point-wise lexicographic order on character lists. -/
def charListLe : List Char → List Char → Bool
  | [], _ => true
  | _ :: _, [] => false
  | a :: as, b :: bs =>
    if a.toNat < b.toNat then true
    else if b.toNat < a.toNat then false
    else charListLe as bs

/-- Lexicographic string order as a boolean (JS default sort comparator). -/
def strLe (a b : String) : Bool := charListLe a.data b.data

/-- Sort a list of strings lexicographically (JS `values.sort()`). -/
def sortStrings : List String → List String := sortLe strLe

/-- Does `sub` occur as a contiguous substring of `s`?  (Structural.) -/
def hasSubseg (sub : List Char) : List Char → Bool
  | [] => sub.isEmpty
  | c :: rest => sub.isPrefixOf (c :: rest) || hasSubseg sub rest

/-- Does string `sub` occur as a substring of `s`? -/
def strContains (s sub : String) : Bool := hasSubseg sub.data s.data

/-- JS `endpoint.split("?")[0]`: everything before the first `?`. -/
def stripQuery (s : String) : String :=
  String.mk (s.data.takeWhile (fun c => !(c == qmarkChar)))

/-! ### `encodeURIComponent`

JS `encodeURIComponent` leaves ASCII alphanumerics and `- _ . ! ~ * ' ( )`
unchanged and percent-encodes every other character's UTF-8 bytes with
uppercase hex digits. -/

/-- Unreserved characters of `encodeURIComponent`:
ASCII alphanumerics and `- _ . ! ~ * ' ( )` (listed by code point). -/
def isUnreservedChar (c : Char) : Bool :=
  c.isAlphanum || [45, 95, 46, 33, 126, 42, 39, 40, 41].contains c.toNat

/-- Uppercase hexadecimal digit for `n < 16`. -/
def hexDigUpper (n : Nat) : Char :=
  if n < 10 then Char.ofNat (48 + n) else Char.ofNat (55 + n)

/-- UTF-8 bytes of a character (as `Nat`s below 256). -/
def utf8Bytes (c : Char) : List Nat :=
  let n := c.toNat
  if n < 128 then [n]
  else if n < 2048 then [192 + n / 64, 128 + n % 64]
  else if n < 65536 then [224 + n / 4096, 128 + (n / 64) % 64, 128 + n % 64]
  else [240 + n / 262144, 128 + (n / 4096) % 64, 128 + (n / 64) % 64, 128 + n % 64]

/-- Percent-encoding of one byte, e.g. `%2F`. -/
def percentByte (b : Nat) : List Char :=
  [Char.ofNat 37, hexDigUpper (b / 16 % 16), hexDigUpper (b % 16)]

/-- Model of JS `encodeURIComponent`. -/
def encodeURIComponent (s : String) : String :=
  String.mk (flatMapL
    (fun c => if isUnreservedChar c then [c] else flatMapL percentByte (utf8Bytes c))
    s.data)

/-! ### Parameter values (the signer's input mapping)

`buildQueryString` takes a `Record<string, string | number | boolean |
(string | number)[]>`, and at runtime also skips `null`/`undefined` values.
Numbers appearing in the client are integral, so they are modelled as `Int`
(JS `String(n)` agrees with `Int` printing there). -/

/-- A scalar parameter value: string, (integral) number, or boolean. -/
inductive Scalar where
  | str (s : String)
  | num (n : Int)
  | boolv (b : Bool)
deriving DecidableEq

/-- JS `String(v)` on a scalar. -/
def Scalar.toStr : Scalar → String
  | .str s => s
  | .num n => toString n
  | .boolv b => cond b "true" "false"

/-- A parameter value: scalar, array of scalars, `null`, or `undefined`. -/
inductive PVal where
  | undef
  | nullv
  | scalar (v : Scalar)
  | arr (vs : List Scalar)
deriving DecidableEq

/-- A parameter mapping, in insertion order.  JS object keys are unique;
states built by the client satisfy this, and theorems that need it say so. -/
abbrev Params := List (String × PVal)

/-! ### `buildQueryString` (src/request.ts lines 28-49) -/

/-- First loop of `buildQueryString`: skip `null`/`undefined`, coerce arrays
element-wise with `String` and sort them (`val.map(String)` then `.sort()`),
coerce scalars to one-element lists.  Produces the `allParams` record in
insertion order. -/
def collectParams : Params → List (String × List String)
  | [] => []
  | (k, v) :: rest =>
    match v with
    | .undef => collectParams rest
    | .nullv => collectParams rest
    | .scalar s => (k, [Scalar.toStr s]) :: collectParams rest
    | .arr vs => (k, sortStrings (vs.map Scalar.toStr)) :: collectParams rest

/-- Second half of `buildQueryString`: `Object.keys(allParams).sort()` and the
nested emission loop.  Since the keys are unique, sorting the key array and
indexing the record is the same as sorting the entry list by key. -/
def emitPairs (entries : List (String × List String)) : List String :=
  flatMapL
    (fun kv => kv.2.map (fun v => encodeURIComponent kv.1 ++ "=" ++ encodeURIComponent v))
    (sortLe (fun a b => strLe a.1 b.1) entries)

/-- `buildQueryString` from src/request.ts. -/
def buildQueryString (params : Params) : String :=
  joinSep "&" (emitPairs (collectParams params))

/-- Canonical query string as the spec words it: skip `null`/`undefined`
entries, stringify and lexicographically sort list values, wrap scalars in
one-element lists; sort the key set lexicographically; emit percent-encoded
`key=value` pairs in key-major, value-minor order joined by `&`.
(Second definition, written from the spec, for comparison with
`buildQueryString` which is written from the source.) -/
def specCanonicalQuery (params : Params) : String :=
  let perKey := collectParams params
  let sorted := sortLe (fun a b => strLe a.1 b.1) perKey
  joinSep "&" (flatMapL
    (fun kv => kv.2.map (fun v => encodeURIComponent kv.1 ++ "=" ++ encodeURIComponent v))
    sorted)

/-! ### SHA-1 and HMAC-SHA1 (`createHmac("sha1", key)`)

32-bit words are `Nat`s kept below `2 ^ 32` by explicit reduction. -/

/-- Reduce to a 32-bit word. -/
def w32 (n : Nat) : Nat := n % 4294967296

/-- Left-rotate a 32-bit word by `s` (for `0 < s < 32` and `n < 2 ^ 32`). -/
def rotl (s n : Nat) : Nat := (n % 2 ^ (32 - s)) * 2 ^ s + n / 2 ^ (32 - s)

/-- Bitwise complement of a 32-bit word. -/
def wnot (n : Nat) : Nat := 4294967295 - n

/-- Split a byte list into 64-byte chunks (`fuel` bounds the recursion; it is
called with `fuel = l.length`, which suffices since each step consumes 64). -/
def chunks64 : Nat → List Nat → List (List Nat)
  | 0, _ => []
  | _, [] => []
  | fuel + 1, l => l.take 64 :: chunks64 fuel (l.drop 64)

/-- Pack bytes into big-endian 32-bit words. -/
def toWords : List Nat → List Nat
  | a :: b :: c :: d :: rest => (a * 16777216 + b * 65536 + c * 256 + d) :: toWords rest
  | _ => []

/-- Extend the 16 message words by `k` more schedule words. -/
def expandWords (ws : List Nat) : Nat → List Nat
  | 0 => ws
  | k + 1 =>
    let i := ws.length
    let w := rotl 1 (((ws.getD (i - 3) 0).xor (ws.getD (i - 8) 0)).xor
      ((ws.getD (i - 14) 0).xor (ws.getD (i - 16) 0)))
    expandWords (ws ++ [w]) k

/-- SHA-1 round function. -/
def sha1F (t b c d : Nat) : Nat :=
  if t < 20 then (b.land c).lor ((wnot b).land d)
  else if t < 40 then (b.xor c).xor d
  else if t < 60 then ((b.land c).lor (b.land d)).lor (c.land d)
  else (b.xor c).xor d

/-- SHA-1 round constants. -/
def sha1K (t : Nat) : Nat :=
  if t < 20 then 1518500249
  else if t < 40 then 1859775393
  else if t < 60 then 2400959708
  else 3395469782

/-- SHA-1 working state. -/
structure H5 where
  a : Nat
  b : Nat
  c : Nat
  d : Nat
  e : Nat

/-- One SHA-1 compression round. -/
def sha1Round (st : H5) (tw : Nat × Nat) : H5 :=
  let temp := w32 (rotl 5 st.a + sha1F tw.1 st.b st.c st.d + st.e + sha1K tw.1 + tw.2)
  ⟨temp, st.a, rotl 30 st.b, st.c, st.d⟩

/-- Process one 64-byte chunk. -/
def processChunk (h : H5) (chunk : List Nat) : H5 :=
  let ws := expandWords (toWords chunk) 64
  let f := ws.enum.foldl sha1Round h
  ⟨w32 (h.a + f.a), w32 (h.b + f.b), w32 (h.c + f.c), w32 (h.d + f.d), w32 (h.e + f.e)⟩

/-- 8-byte big-endian encoding. -/
def bytes8BE (n : Nat) : List Nat :=
  [n / 72057594037927936 % 256, n / 281474976710656 % 256,
   n / 1099511627776 % 256, n / 4294967296 % 256,
   n / 16777216 % 256, n / 65536 % 256, n / 256 % 256, n % 256]

/-- SHA-1 message padding. -/
def sha1Pad (msg : List Nat) : List Nat :=
  let len := msg.length
  msg ++ [128] ++ List.replicate ((64 - (len + 9) % 64) % 64) 0 ++ bytes8BE (len * 8)

/-- Big-endian bytes of a 32-bit word. -/
def wordBytes (w : Nat) : List Nat :=
  [w / 16777216 % 256, w / 65536 % 256, w / 256 % 256, w % 256]

/-- SHA-1 digest (20 bytes) of a byte list. -/
def sha1Bytes (msg : List Nat) : List Nat :=
  let padded := sha1Pad msg
  let f := (chunks64 padded.length padded).foldl processChunk
    ⟨1732584193, 4023233417, 2562383102, 271733878, 3285377520⟩
  wordBytes f.a ++ wordBytes f.b ++ wordBytes f.c ++ wordBytes f.d ++ wordBytes f.e

/-- HMAC-SHA1 (RFC 2104) over byte lists. -/
def hmacSha1 (key msg : List Nat) : List Nat :=
  let k0 := if 64 < key.length then sha1Bytes key else key
  let kp := k0 ++ List.replicate (64 - k0.length) 0
  sha1Bytes ((kp.map (fun b => b.xor 92)) ++ sha1Bytes ((kp.map (fun b => b.xor 54)) ++ msg))

/-- Two uppercase hex digits of a byte (`b < 256` for actual digest bytes;
the inner `% 16` is the identity there). -/
def hexByte (b : Nat) : List Char :=
  [hexDigUpper (b / 16 % 16), hexDigUpper (b % 16)]

/-- Uppercase hex string of a byte list (`digest("hex").toUpperCase()`). -/
def hexUpperStr (bs : List Nat) : String := String.mk (flatMapL hexByte bs)

/-- UTF-8 bytes of a string (what `createHmac(...).update(string)` hashes). -/
def strBytes (s : String) : List Nat := flatMapL utf8Bytes s.data

/-! ### `signRequest` and `buildSignedUrl` (src/request.ts lines 51-73) -/

/-- Signing credentials: developer id and shared secret key. -/
structure SigningCredentials where
  devId : String
  apiKey : String

/-- `signRequest` from src/request.ts: uppercase-hex HMAC-SHA1 of
`path?queryString` (bare `path` when the query string is empty, the JS
truthiness test on a string). -/
def signRequest (path queryString apiKey : String) : String :=
  hexUpperStr (hmacSha1 (strBytes apiKey)
    (strBytes (if queryString = "" then path else path ++ "?" ++ queryString)))

/-- JS object spread `{ ...params, devid: v }`: replace the value of an
existing `devid` key in place, else append the key at the end. -/
def setParam (ps : Params) (k : String) (v : PVal) : Params :=
  if ps.any (fun e => e.1 == k) then ps.map (fun e => if e.1 == k then (e.1, v) else e)
  else ps ++ [(k, v)]

/-- `buildSignedUrl` from src/request.ts. -/
def buildSignedUrl (baseUrl path : String) (params : Params)
    (credentials : SigningCredentials) : String :=
  let allParams := setParam params "devid" (.scalar (.str credentials.devId))
  let queryString := buildQueryString allParams
  let signature := signRequest path queryString credentials.apiKey
  baseUrl ++ path ++ "?" ++ queryString ++ "&signature=" ++ signature

/-! ### JSON values and `JSON.stringify` / `JSON.parse`

`redactBody` round-trips structured bodies through JSON text.  Bodies are
modelled as the inductive `JVal` (acyclic JSON data; JS numbers restricted
to integers, which covers every body the client constructs).  The parser
below accepts exactly the JSON grammar on that fragment and fails on
malformed text, as `JSON.parse` does. -/

/-- A JSON value (numbers restricted to integers). -/
inductive JVal where
  | nullv
  | boolv (b : Bool)
  | num (n : Int)
  | str (s : String)
  | arr (vs : List JVal)
  | obj (ms : List (String × JVal))

/-- JSON string escaping as `JSON.stringify` performs it: `"` and `\`
escaped, the common control characters by short escapes, other control
characters by `\u00XX`. -/
def jsonEscapeChar (c : Char) : List Char :=
  if c == quoteChar then [backslashChar, quoteChar]
  else if c == backslashChar then [backslashChar, backslashChar]
  else if c == Char.ofNat 10 then [backslashChar, Char.ofNat 110]
  else if c == Char.ofNat 9 then [backslashChar, Char.ofNat 116]
  else if c == Char.ofNat 13 then [backslashChar, Char.ofNat 114]
  else if c == Char.ofNat 8 then [backslashChar, Char.ofNat 98]
  else if c == Char.ofNat 12 then [backslashChar, Char.ofNat 102]
  else if c.toNat < 32 then
    [backslashChar, Char.ofNat 117, Char.ofNat 48, Char.ofNat 48,
     hexDigUpper (c.toNat / 16), hexDigUpper (c.toNat % 16)]
  else [c]

/-- A JSON string literal (quotes included). -/
def jsonQuote (s : String) : List Char :=
  quoteChar :: flatMapL jsonEscapeChar s.data ++ [quoteChar]

mutual

/-- `JSON.stringify` on a `JVal` (no spacing, insertion-order keys). -/
def jsonStringify : JVal → List Char
  | .nullv => "null".data
  | .boolv true => "true".data
  | .boolv false => "false".data
  | .num n => (toString n).data
  | .str s => jsonQuote s
  | .arr vs => lbrackChar :: jsonStringifyList vs ++ [rbrackChar]
  | .obj ms => lcurlChar :: jsonStringifyMembers ms ++ [rcurlChar]

/-- Comma-separated stringification of array elements. -/
def jsonStringifyList : List JVal → List Char
  | [] => []
  | [v] => jsonStringify v
  | v :: vs => jsonStringify v ++ Char.ofNat 44 :: jsonStringifyList vs

/-- Comma-separated stringification of object members. -/
def jsonStringifyMembers : List (String × JVal) → List Char
  | [] => []
  | [(k, v)] => jsonQuote k ++ Char.ofNat 58 :: jsonStringify v
  | (k, v) :: ms => jsonQuote k ++ Char.ofNat 58 :: jsonStringify v ++
      Char.ofNat 44 :: jsonStringifyMembers ms

end

/-- JSON whitespace. -/
def isJsonWs (c : Char) : Bool :=
  c == Char.ofNat 32 || c == Char.ofNat 9 || c == Char.ofNat 10 || c == Char.ofNat 13

/-- Skip JSON whitespace. -/
def skipWs (l : List Char) : List Char := l.dropWhile isJsonWs

/-- Parse the tail of a JSON string literal (opening quote consumed).
Returns the decoded characters and the rest of the input. -/
def parseStringTail : List Char → Option (List Char × List Char)
  | [] => none
  | c :: rest =>
    if c == quoteChar then some ([], rest)
    else if c == backslashChar then
      match rest with
      | [] => none
      | e :: rest2 =>
        let dec : Option Char :=
          if e == quoteChar then some quoteChar
          else if e == backslashChar then some backslashChar
          else if e == Char.ofNat 47 then some (Char.ofNat 47)
          else if e == Char.ofNat 110 then some (Char.ofNat 10)
          else if e == Char.ofNat 116 then some (Char.ofNat 9)
          else if e == Char.ofNat 114 then some (Char.ofNat 13)
          else if e == Char.ofNat 98 then some (Char.ofNat 8)
          else if e == Char.ofNat 102 then some (Char.ofNat 12)
          else none
        match dec with
        | none => none
        | some d =>
          match parseStringTail rest2 with
          | none => none
          | some (cs, rem) => some (d :: cs, rem)
    else if c.toNat < 32 then none
    else
      match parseStringTail rest with
      | none => none
      | some (cs, rem) => some (c :: cs, rem)

/-- Parse a (possibly signed) decimal integer. -/
def parseIntLit (l : List Char) : Option (Int × List Char) :=
  let (neg, l') : Bool × List Char :=
    match l with
    | c :: rest => if c == Char.ofNat 45 then (true, rest) else (false, l)
    | [] => (false, l)
  let digits := l'.takeWhile (fun c => c.isDigit)
  let rest := l'.dropWhile (fun c => c.isDigit)
  if digits.isEmpty then none
  else
    let n : Nat := digits.foldl (fun acc c => acc * 10 + (c.toNat - 48)) 0
    some (if neg then -(n : Int) else (n : Int), rest)

mutual

/-- Recursive-descent JSON parser (fuel-bounded; fuel exceeds nesting depth
whenever it is at least the input length, as `jsonParse` arranges).
Returns the value and the unconsumed input. -/
def parseVal : Nat → List Char → Option (JVal × List Char)
  | 0, _ => none
  | fuel + 1, l =>
    match skipWs l with
    | [] => none
    | c :: rest =>
      if c == quoteChar then
        match parseStringTail rest with
        | none => none
        | some (cs, rem) => some (.str (String.mk cs), rem)
      else if c == lbrackChar then
        match skipWs rest with
        | d :: rest2 =>
          if d == rbrackChar then some (.arr [], rest2)
          else parseElems fuel (d :: rest2) []
        | [] => none
      else if c == lcurlChar then
        match skipWs rest with
        | d :: rest2 =>
          if d == rcurlChar then some (.obj [], rest2)
          else parseMembers fuel (d :: rest2) []
        | [] => none
      else if "true".data.isPrefixOf (c :: rest) then
        some (.boolv true, (c :: rest).drop 4)
      else if "false".data.isPrefixOf (c :: rest) then
        some (.boolv false, (c :: rest).drop 5)
      else if "null".data.isPrefixOf (c :: rest) then
        some (.nullv, (c :: rest).drop 4)
      else
        match parseIntLit (c :: rest) with
        | none => none
        | some (n, rem) => some (.num n, rem)

/-- Parse the elements of a non-empty JSON array, accumulating in `acc`. -/
def parseElems : Nat → List Char → List JVal → Option (JVal × List Char)
  | 0, _, _ => none
  | fuel + 1, l, acc =>
    match parseVal fuel l with
    | none => none
    | some (v, rem) =>
      match skipWs rem with
      | c :: rest =>
        if c == rbrackChar then some (.arr (acc ++ [v]), rest)
        else if c == Char.ofNat 44 then parseElems fuel rest (acc ++ [v])
        else none
      | [] => none

/-- Parse the members of a non-empty JSON object, accumulating in `acc`. -/
def parseMembers : Nat → List Char → List (String × JVal) →
    Option (JVal × List Char)
  | 0, _, _ => none
  | fuel + 1, l, acc =>
    match skipWs l with
    | k :: rest =>
      if k == quoteChar then
        match parseStringTail rest with
        | none => none
        | some (cs, rem) =>
          match skipWs rem with
          | c :: rest2 =>
            if c == Char.ofNat 58 then
              match parseVal fuel rest2 with
              | none => none
              | some (v, rem2) =>
                match skipWs rem2 with
                | d :: rest3 =>
                  if d == rcurlChar then some (.obj (acc ++ [(String.mk cs, v)]), rest3)
                  else if d == Char.ofNat 44 then
                    parseMembers fuel rest3 (acc ++ [(String.mk cs, v)])
                  else none
                | [] => none
            else none
          | [] => none
      else none
    | [] => none

end

/-- `JSON.parse`: parse one value and require only whitespace to follow. -/
def jsonParse (s : List Char) : Option JVal :=
  match parseVal (s.length + 1) s with
  | none => none
  | some (v, rem) => if (skipWs rem).isEmpty then some v else none

/-! ### Credential redaction (src/errors.ts lines 1-28)

`REDACT_PATTERNS` is five global case-insensitive regexes
`devid=[^&]*`, `signature=[^&]*`, `apikey=[^&]*`, `key=[^&]*`,
`api_key=[^&]*`, applied in that order; each match is replaced by
`` `${key}=[REDACTED]` `` where `key` is the matched text before the
first `=` (the key portion, original case preserved). -/

/-- Case-insensitive prefix test (ASCII, as a JS `i`-flag regex literal). -/
def ciMatch : List Char → List Char → Bool
  | [], _ => true
  | _ :: _, [] => false
  | k :: ks, c :: cs => (k.toLower == c.toLower) && ciMatch ks cs

/-- After the key, the regex requires a literal `=`. -/
def hasEqAfter (key l : List Char) : Bool :=
  match l.drop key.length with
  | c :: _ => c == eqChar
  | [] => false

/-- Does a match of `key=[^&]*` (case-insensitive in the key) start here? -/
def tryKey (key l : List Char) : Bool := ciMatch key l && hasEqAfter key l

/-- One global-replace pass of `key=[^&]*`: scan left to right; on a match
emit the original key text plus `=[REDACTED]` and continue after the
matched (maximal `&`-free) value; replacement text is not rescanned in the
same pass.  `fuel` bounds the recursion; every step consumes at least one
character, so `fuel = l.length` (as `scrubPass` passes) always suffices. -/
def scrubGo (key : List Char) : Nat → List Char → List Char
  | 0, l => l
  | _, [] => []
  | fuel + 1, c :: rest =>
    if tryKey key (c :: rest) then
      (c :: rest).take key.length ++ eqChar :: "[REDACTED]".data ++
        scrubGo key fuel (((c :: rest).drop (key.length + 1)).dropWhile (fun x => !(x == ampChar)))
    else c :: scrubGo key fuel rest

/-- One full `String.replace` pass for one pattern. -/
def scrubPass (key : List Char) (l : List Char) : List Char := scrubGo key l.length l

/-- The five pattern keys, in source order. -/
def redactKeys : List (List Char) :=
  ["devid".data, "signature".data, "apikey".data, "key".data, "api_key".data]

/-- `redactCredentials` on a character list: the five passes in order. -/
def redactChars (l : List Char) : List Char :=
  redactKeys.foldl (fun acc k => scrubPass k acc) l

/-- `redactCredentials` from src/errors.ts. -/
def redactCredentials (s : String) : String := String.mk (redactChars s.data)

/-- `redactBody` from src/errors.ts: strings are scrubbed directly;
non-objects (and `null`) are returned unchanged; objects and arrays are
round-tripped `JSON.parse(redactCredentials(JSON.stringify(body)))`, and if
the round-trip fails the original body is returned unscrubbed. -/
def redactBody : JVal → JVal
  | .str s => .str (redactCredentials s)
  | .nullv => .nullv
  | .boolv b => .boolv b
  | .num n => .num n
  | .arr vs =>
    match jsonParse (redactChars (jsonStringify (.arr vs))) with
    | some w => w
    | none => .arr vs
  | .obj ms =>
    match jsonParse (redactChars (jsonStringify (.obj ms))) with
    | some w => w
    | none => .obj ms

/-! ### The `PTVError` hierarchy (src/errors.ts lines 30-114)

An error value records the observable fields of the JS error object: its
`name` (which identifies the class, i.e. the taxonomy kind), `message`,
`statusCode`, query-stripped `endpoint`, optional redacted `responseBody`,
and optional `cause` (modelled by the cause's `(name, message)` pair).
The stack trace is environment-dependent text and is not modelled. -/

/-- An error of the taxonomy, by its observable fields. -/
structure PTVErr where
  name : String
  message : String
  statusCode : Int
  endpoint : String
  responseBody : Option JVal
  cause : Option (String × String)

/-- The `PTVError` base-class constructor: redacts the message, strips the
query string from the endpoint, and redacts the response body. -/
def mkPTVError (message : String) (statusCode : Int) (endpoint : String)
    (responseBody : Option JVal) : PTVErr :=
  { name := "PTVError"
    message := redactCredentials message
    statusCode := statusCode
    endpoint := stripQuery endpoint
    responseBody := responseBody.map redactBody
    cause := none }

/-- `PTVAuthError`: hard-coded message and status 403. -/
def mkAuthError (endpoint : String) (responseBody : Option JVal) : PTVErr :=
  { mkPTVError "Authentication failed" 403 endpoint responseBody with name := "PTVAuthError" }

/-- `PTVBadRequestError`. -/
def mkBadRequestError (endpoint : String) (responseBody : Option JVal) : PTVErr :=
  { mkPTVError "Bad request" 400 endpoint responseBody with name := "PTVBadRequestError" }

/-- `PTVNotFoundError`. -/
def mkNotFoundError (endpoint : String) (responseBody : Option JVal) : PTVErr :=
  { mkPTVError "Resource not found" 404 endpoint responseBody with name := "PTVNotFoundError" }

/-- `PTVRateLimitError`. -/
def mkRateLimitError (endpoint : String) (responseBody : Option JVal) : PTVErr :=
  { mkPTVError "Rate limit exceeded" 429 endpoint responseBody with name := "PTVRateLimitError" }

/-- `PTVServerError`: status code preserved in field and message. -/
def mkServerError (statusCode : Int) (endpoint : String) (responseBody : Option JVal) : PTVErr :=
  { mkPTVError ("Server error (" ++ toString statusCode ++ ")") statusCode endpoint responseBody with
    name := "PTVServerError" }

/-- `PTVNetworkError`: status 0, message from the cause, cause stored. -/
def mkNetworkError (endpoint : String) (cause : Option (String × String)) : PTVErr :=
  { mkPTVError ("Network error: " ++ (match cause with | some c => c.2 | none => "unknown"))
      0 endpoint none with
    name := "PTVNetworkError", cause := cause }

/-- `PTVTimeoutError`: status 0, message carries the timeout duration. -/
def mkTimeoutError (endpoint : String) (timeoutMs : Int) : PTVErr :=
  { mkPTVError ("Request timed out after " ++ toString timeoutMs ++ "ms") 0 endpoint none with
    name := "PTVTimeoutError" }

/-- `errorFromStatus` from src/errors.ts lines 116-142. -/
def errorFromStatus (statusCode : Int) (endpoint : String)
    (responseBody : Option JVal) : PTVErr :=
  if statusCode = 400 then mkBadRequestError endpoint responseBody
  else if statusCode = 401 ∨ statusCode = 403 then mkAuthError endpoint responseBody
  else if statusCode = 404 then mkNotFoundError endpoint responseBody
  else if statusCode = 429 then mkRateLimitError endpoint responseBody
  else if 500 ≤ statusCode then mkServerError statusCode endpoint responseBody
  else mkPTVError ("HTTP " ++ toString statusCode) statusCode endpoint responseBody

/-! ### Request manager state and handlers (src/request-manager.ts)

`lastRequestTime` and `backoffMs` are the mutable scalars of one
`RequestManager` instance; times are milliseconds as `Int`. -/

/-- The throttle/backoff scalars of a `RequestManager`. -/
structure RMState where
  lastRequestTime : Int
  backoffMs : Int
deriving DecidableEq

/-- `applyBackoff` (lines 184-188): `backoffMs === 0 ? 1000 :
Math.min(backoffMs * 2, maxBackoff)`. -/
def applyBackoffVal (maxBackoff backoffMs : Int) : Int :=
  if backoffMs = 0 then 1000 else min (backoffMs * 2) maxBackoff

/-- `applyBackoff` acting on the manager state. -/
def applyBackoff (maxBackoff : Int) (st : RMState) : RMState :=
  { st with backoffMs := applyBackoffVal maxBackoff st.backoffMs }

/-- The `currentBackoff` getter. -/
def currentBackoff (st : RMState) : Int := st.backoffMs

/-- `resetBackoff()`. -/
def resetBackoff (st : RMState) : RMState := { st with backoffMs := 0 }

/-- A transport response as the manager sees it: its HTTP status and an
identity tag, so that "returns the raw response object" is expressible. -/
structure RespLike where
  status : Int
  rid : Nat
deriving DecidableEq

/-- The resolution handler of `doRequest` (lines 139-153): record
`lastRequestTime = now`; on 429 escalate backoff and throw `PTVRateLimitError`;
on status >= 500 escalate backoff and throw `PTVServerError`; otherwise reset
the backoff to 0 and return the response unchanged. -/
def handleResolve (maxBackoff : Int) (endpoint : String) (st : RMState)
    (now : Int) (resp : RespLike) : RMState × (PTVErr ⊕ RespLike) :=
  let st1 := { st with lastRequestTime := now }
  if resp.status = 429 then
    (applyBackoff maxBackoff st1, Sum.inl (mkRateLimitError endpoint none))
  else if 500 ≤ resp.status then
    (applyBackoff maxBackoff st1, Sum.inl (mkServerError resp.status endpoint none))
  else
    ({ st1 with backoffMs := 0 }, Sum.inr resp)

/-- An exception reaching the `.catch` handler of `doRequest`. -/
inductive TransportExn where
  | ptvExn (e : PTVErr)
  | abortExn
  | typeError (msg : String)
  | otherExn (tag : String)

/-- The `.catch` handler of `doRequest` (lines 155-169).  `PTVRateLimitError`
and `PTVServerError` instances are rethrown by the first two tests; any other
`PTVError` instance is neither a `DOMException` nor a `TypeError` and is
rethrown by the final `throw error`, so every `PTVErr` passes through
unchanged.  A `DOMException` named `AbortError` (the timeout guard's abort)
becomes `PTVTimeoutError` carrying the configured timeout; a `TypeError`
becomes `PTVNetworkError` with the original exception as its cause; anything
else is rethrown unmodified. -/
def handleCatch (endpoint : String) (timeout : Int) : TransportExn → TransportExn
  | .ptvExn e => .ptvExn e
  | .abortExn => .ptvExn (mkTimeoutError endpoint timeout)
  | .typeError m => .ptvExn (mkNetworkError endpoint (some ("TypeError", m)))
  | .otherExn t => .otherExn t

/-! ### Timed model of one `doRequest` (lines 128-182)

`doRequest` synchronously schedules `controller.abort()` at
`t0 + timeout`, then awaits `waitForThrottle()` — a single wait of
`max 0 ((minInterval + backoffMs) - (t0 - lastRequestTime))` ms — and then
invokes `fetchFn(url, { signal })`.  The fetch is therefore always invoked,
at the end of the wait; if the abort timer has already fired by then, native
fetch rejects immediately with an `AbortError` and performs no network
activity.  The transport's own behaviour (when it is reached un-aborted) is
a parameter; a response is modelled as arriving at dispatch time. -/

/-- Manager configuration (defaults 200 / 60000 / 10000 in the source). -/
structure RMConfig where
  minInterval : Int
  maxBackoff : Int
  timeout : Int

/-- Behaviour of the injected transport when invoked with a live signal. -/
inductive TransportB where
  | resolves (status : Int) (rid : Nat)
  | rejects (e : TransportExn)
  | hangs

/-- Observable outcome of one `doRequest`. -/
structure RunOutcome where
  fetchAt : Int
  transportInvoked : Bool
  finalState : RMState
  result : TransportExn ⊕ RespLike

/-- The single coupled throttle-plus-backoff wait of `waitForThrottle`. -/
def throttleDelay (cfg : RMConfig) (st : RMState) (t0 : Int) : Int :=
  max 0 ((cfg.minInterval + st.backoffMs) - (t0 - st.lastRequestTime))

/-- One `doRequest` started at time `t0`. -/
def runSingle (cfg : RMConfig) (endpoint : String) (st : RMState) (t0 : Int)
    (tb : TransportB) : RunOutcome :=
  let abortAt := t0 + cfg.timeout
  let t1 := t0 + throttleDelay cfg st t0
  if abortAt ≤ t1 then
    { fetchAt := t1, transportInvoked := true, finalState := st,
      result := Sum.inl (handleCatch endpoint cfg.timeout .abortExn) }
  else
    match tb with
    | .resolves status rid =>
      let pr := handleResolve cfg.maxBackoff endpoint st t1 ⟨status, rid⟩
      { fetchAt := t1, transportInvoked := true, finalState := pr.1,
        result := match pr.2 with
          | .inl e => Sum.inl (.ptvExn e)
          | .inr r => Sum.inr r }
    | .rejects e =>
      { fetchAt := t1, transportInvoked := true, finalState := st,
        result := Sum.inl (handleCatch endpoint cfg.timeout e) }
    | .hangs =>
      { fetchAt := t1, transportInvoked := true, finalState := st,
        result := Sum.inl (handleCatch endpoint cfg.timeout .abortExn) }

/-! ### Interleaving model of `execute` and the in-flight map (lines 114-126)

Logical callers step concurrently; each `execute(url)` is one atomic lookup
of the in-flight map followed by either attaching to the existing promise
(`existing.promise.then(r => r.clone())` — no new physical call) or creating
the `doRequest` promise, registering it, and invoking the transport.  A
promise settlement and the owner's `finally { this.inFlight.delete(url) }`
are one atomic transition, following the spec's concurrency model
("insert-on-dispatch, delete-on-settle must be atomic"): no `execute` call
can run between a settlement and the owner's immediately-queued deletion. -/

/-- Settlement outcome of a shared promise (response / error identity). -/
inductive POut where
  | ok (rid : Nat)
  | fail (eid : Nat)
deriving DecidableEq

/-- The phase of one logical caller.  `clone = true` means the caller
attached to an existing in-flight promise and reads `r.clone()`, its own
independently consumable copy of the body. -/
inductive Phase where
  | toCall (url : String)
  | waiting (pid : Nat) (clone : Bool)
  | finished (res : POut) (clone : Bool)
deriving DecidableEq

/-- The shared state of one `RequestManager` plus its logical callers:
the in-flight map, the settled promises, each caller's phase, the log of
physical transport invocations, and a fresh-promise counter. -/
structure Sys where
  inFlight : List (String × Nat)
  settled : List (Nat × POut)
  callers : List (Nat × Phase)
  calls : List (Nat × String)
  nextP : Nat
deriving DecidableEq

/-- Update the phase of caller `i`. -/
def updCaller (cs : List (Nat × Phase)) (i : Nat) (ph : Phase) : List (Nat × Phase) :=
  cs.map (fun e => if e.1 == i then (e.1, ph) else e)

/-- The atomic transitions of the dedup layer. -/
inductive Step : Sys → Sys → Prop where
  | join (s : Sys) (i : Nat) (u : String) (p : Nat) :
      s.callers.lookup i = some (.toCall u) →
      s.inFlight.lookup u = some p →
      Step s { s with callers := updCaller s.callers i (.waiting p true) }
  | fresh (s : Sys) (i : Nat) (u : String) :
      s.callers.lookup i = some (.toCall u) →
      s.inFlight.lookup u = none →
      Step s { s with
        inFlight := (u, s.nextP) :: s.inFlight,
        calls := s.calls ++ [(s.nextP, u)],
        callers := updCaller s.callers i (.waiting s.nextP false),
        nextP := s.nextP + 1 }
  | settle (s : Sys) (p : Nat) (o : POut) :
      p < s.nextP →
      s.settled.lookup p = none →
      Step s { s with
        settled := (p, o) :: s.settled,
        inFlight := s.inFlight.filter (fun e => !(e.2 == p)) }
  | resume (s : Sys) (i : Nat) (p : Nat) (c : Bool) (o : POut) :
      s.callers.lookup i = some (.waiting p c) →
      s.settled.lookup p = some o →
      Step s { s with callers := updCaller s.callers i (.finished o c) }

/-! ### A concrete two-caller dedup trace -/

/-- A signed URL used by the concrete dedup scenario. -/
def demoUrl : String := "https://t/v3/search/a?devid=1&x=2&signature=AB"

/-- Callers 1, 2 and 3 all about to execute the same URL. -/
def demoS0 : Sys :=
  ⟨[], [], [(1, .toCall demoUrl), (2, .toCall demoUrl), (3, .toCall demoUrl)], [], 0⟩

/-- Caller 1 dispatched the fresh physical call (promise 0). -/
def demoS1 : Sys :=
  ⟨[(demoUrl, 0)], [], [(1, .waiting 0 false), (2, .toCall demoUrl), (3, .toCall demoUrl)],
    [(0, demoUrl)], 1⟩

/-- Caller 2 joined the in-flight promise (no new physical call). -/
def demoS2 : Sys :=
  ⟨[(demoUrl, 0)], [], [(1, .waiting 0 false), (2, .waiting 0 true), (3, .toCall demoUrl)],
    [(0, demoUrl)], 1⟩

/-- Promise 0 settled successfully; the in-flight entry is removed in the
same atomic transition. -/
def demoS3 : Sys :=
  ⟨[], [(0, .ok 7)], [(1, .waiting 0 false), (2, .waiting 0 true), (3, .toCall demoUrl)],
    [(0, demoUrl)], 1⟩

/-- Caller 1 resumed with the shared response. -/
def demoS4 : Sys :=
  ⟨[], [(0, .ok 7)], [(1, .finished (.ok 7) false), (2, .waiting 0 true), (3, .toCall demoUrl)],
    [(0, demoUrl)], 1⟩

/-- Caller 2 resumed with its clone of the shared response. -/
def demoS5 : Sys :=
  ⟨[], [(0, .ok 7)],
    [(1, .finished (.ok 7) false), (2, .finished (.ok 7) true), (3, .toCall demoUrl)],
    [(0, demoUrl)], 1⟩

/-- Caller 3, arriving after settlement, dispatches a fresh physical call. -/
def demoS6 : Sys :=
  ⟨[(demoUrl, 1)], [(0, .ok 7)],
    [(1, .finished (.ok 7) false), (2, .finished (.ok 7) true), (3, .waiting 1 false)],
    [(0, demoUrl), (1, demoUrl)], 2⟩

/-- An uppercase hexadecimal digit (`0-9` or `A-F`). -/
def isUpperHexDigit (c : Char) : Bool :=
  (48 ≤ c.toNat && c.toNat ≤ 57) || (65 ≤ c.toNat && c.toNat ≤ 70)

/-! ### Helper lemmas -/

/-- `Nat.digitChar` never produces `=` or `&`. -/
theorem digitChar_benign (m : Nat) : Nat.digitChar m ≠ eqChar ∧ Nat.digitChar m ≠ ampChar := by
  rcases Nat.lt_or_ge m 16 with h | h
  · exact (by decide : ∀ m < 16, Nat.digitChar m ≠ eqChar ∧ Nat.digitChar m ≠ ampChar) m h
  · have hs : Nat.digitChar m = '*' := by
      unfold Nat.digitChar
      simp only [if_neg (show ¬ m = 0 by omega), if_neg (show ¬ m = 1 by omega),
        if_neg (show ¬ m = 2 by omega), if_neg (show ¬ m = 3 by omega),
        if_neg (show ¬ m = 4 by omega), if_neg (show ¬ m = 5 by omega),
        if_neg (show ¬ m = 6 by omega), if_neg (show ¬ m = 7 by omega),
        if_neg (show ¬ m = 8 by omega), if_neg (show ¬ m = 9 by omega),
        if_neg (show ¬ m = 10 by omega), if_neg (show ¬ m = 11 by omega),
        if_neg (show ¬ m = 12 by omega), if_neg (show ¬ m = 13 by omega),
        if_neg (show ¬ m = 14 by omega), if_neg (show ¬ m = 15 by omega)]
    rw [hs]
    exact ⟨by decide, by decide⟩

/-- `Nat.toDigitsCore` preserves absence of `=` and `&`. -/
theorem toDigitsCore_benign (fuel : Nat) :
    ∀ (n : Nat) (acc : List Char), (∀ c ∈ acc, c ≠ eqChar ∧ c ≠ ampChar) →
      ∀ c ∈ Nat.toDigitsCore 10 fuel n acc, c ≠ eqChar ∧ c ≠ ampChar := by
  induction fuel with
  | zero => intro n acc h; simpa [Nat.toDigitsCore] using h
  | succ fuel ih =>
    intro n acc h c hc
    rw [Nat.toDigitsCore] at hc
    have hacc : ∀ c ∈ Nat.digitChar (n % 10) :: acc, c ≠ eqChar ∧ c ≠ ampChar := by
      intro d hd
      rcases List.mem_cons.mp hd with h1 | h1
      · exact h1 ▸ digitChar_benign (n % 10)
      · exact h d h1
    by_cases h10 : n / 10 = 0
    · simp only [h10, if_pos] at hc
      exact hacc c hc
    · simp only [h10, if_neg, ite_false] at hc
      exact ih (n / 10) (Nat.digitChar (n % 10) :: acc) hacc c hc

/-- Decimal representations of naturals contain no `=` and no `&`. -/
theorem natRepr_benign (n : Nat) :
    ∀ c ∈ (Nat.repr n).data, c ≠ eqChar ∧ c ≠ ampChar := by
  intro c hc
  exact toDigitsCore_benign (n + 1) n [] (by intro d hd; cases hd) c hc

/-- `toString` of an `Int` contains no `=` and no `&`. -/
theorem intToString_benign (i : Int) :
    ∀ c ∈ (toString i).data, c ≠ eqChar ∧ c ≠ ampChar := by
  intro c hc
  cases i with
  | ofNat m => exact natRepr_benign m c hc
  | negSucc m =>
    have : c ∈ ("-" : String).data ++ (Nat.repr (m + 1)).data := by
      simpa [toString, String.data_append] using hc
    rcases List.mem_append.mp this with h1 | h1
    · have hc1 : c = '-' := by simpa using h1
      exact hc1 ▸ ⟨by decide, by decide⟩
    · exact natRepr_benign (m + 1) c h1

/-- `tryKey` needs a literal `=` in the input. -/
theorem tryKey_eq_false_of_no_eq (key l : List Char) (h : eqChar ∉ l) :
    tryKey key l = false := by
  have he : hasEqAfter key l = false := by
    unfold hasEqAfter
    cases hd : l.drop key.length with
    | nil => rfl
    | cons c t =>
      have hc : c ∈ l := List.drop_subset key.length l (hd ▸ List.mem_cons_self c t)
      have : c ≠ eqChar := fun hce => h (hce ▸ hc)
      simpa [beq_eq_false_iff_ne]
  unfold tryKey
  rw [he, Bool.and_false]

/-- A scrub pass leaves `=`-free text unchanged. -/
theorem scrubGo_id_of_no_eq (key : List Char) (fuel : Nat) :
    ∀ l : List Char, eqChar ∉ l → scrubGo key fuel l = l := by
  induction fuel with
  | zero => intro l _; cases l <;> rfl
  | succ fuel ih =>
    intro l h
    cases l with
    | nil => rfl
    | cons c rest =>
      rw [scrubGo, if_neg (by simp [tryKey_eq_false_of_no_eq key (c :: rest) h])]
      have : eqChar ∉ rest := fun hm => h (List.mem_cons_of_mem c hm)
      rw [ih rest this]

/-- `redactCredentials` leaves `=`-free strings unchanged. -/
theorem redact_id_of_no_eq (s : String) (h : ∀ c ∈ s.data, c ≠ eqChar) :
    redactCredentials s = s := by
  have hm : eqChar ∉ s.data := fun hc => (h eqChar hc) rfl
  have key : ∀ (ks : List (List Char)) (l : List Char), eqChar ∉ l →
      ks.foldl (fun acc k => scrubPass k acc) l = l := by
    intro ks
    induction ks with
    | nil => intro l _; rfl
    | cons k ks ih =>
      intro l hl
      have : scrubPass k l = l := scrubGo_id_of_no_eq k l.length l hl
      simp only [List.foldl_cons, this]
      exact ih l hl
  show String.mk (redactChars s.data) = s
  rw [show redactChars s.data = s.data from key redactKeys s.data hm]

/-- `hexDigUpper` of a nibble is an uppercase hex digit. -/
theorem hexDigUpper_mod16 (n : Nat) : isUpperHexDigit (hexDigUpper (n % 16)) = true :=
  (by decide : ∀ m < 16, isUpperHexDigit (hexDigUpper m) = true)
    (n % 16) (Nat.mod_lt n (by decide))

/-- Hex strings have two characters per byte. -/
theorem length_flatMapL_hexByte (bs : List Nat) :
    (flatMapL hexByte bs).length = 2 * bs.length := by
  induction bs with
  | nil => rfl
  | cons b bs ih =>
    simp only [flatMapL, hexByte, List.length_append, List.length_cons, ih,
      List.length_nil]
    omega

/-- Every character of a hex string is an uppercase hex digit. -/
theorem all_flatMapL_hexByte (bs : List Nat) :
    (flatMapL hexByte bs).all isUpperHexDigit = true := by
  induction bs with
  | nil => rfl
  | cons b bs ih =>
    simp only [flatMapL, List.all_append, ih, Bool.and_true, hexByte,
      List.all_cons, List.all_nil, hexDigUpper_mod16]

/-- A SHA-1 digest is exactly 20 bytes. -/
theorem sha1Bytes_length (msg : List Nat) : (sha1Bytes msg).length = 20 := by
  simp [sha1Bytes, wordBytes]

/-- An HMAC-SHA1 digest is exactly 20 bytes. -/
theorem hmacSha1_length (key msg : List Nat) : (hmacSha1 key msg).length = 20 := by
  unfold hmacSha1
  exact sha1Bytes_length _

/-- Claim C1: `buildQueryString` is the canonical query serialization: it
skips null/undefined entries, stringifies and lexicographically sorts array
values (string comparison, not numeric), treats scalars as one-element
lists, sorts the key set, and joins percent-encoded `key=value` pairs with
`&` in key-major, value-minor order.  The empty mapping yields `""`; an
empty list value drops its key; numeric `0` and boolean `false` are
retained; and the two round-trip examples of the spec hold. -/
theorem claim_C1 :
    (∀ params : Params, buildQueryString params = specCanonicalQuery params)
    ∧ buildQueryString [] = ""
    ∧ (∀ (k : String) (ps : Params),
        buildQueryString ((k, .nullv) :: ps) = buildQueryString ps)
    ∧ (∀ (k : String) (ps : Params),
        buildQueryString ((k, .undef) :: ps) = buildQueryString ps)
    ∧ buildQueryString
        [("a", .scalar (.str "1")), ("m", .arr []), ("z", .scalar (.str "2"))] = "a=1&z=2"
    ∧ buildQueryString [("count", .scalar (.num 0)), ("flag", .scalar (.boolv false))]
        = "count=0&flag=false"
    ∧ buildQueryString [("z", .scalar (.str "1")), ("a", .scalar (.str "2"))] = "a=2&z=1"
    ∧ buildQueryString [("route_types", .arr [.num 2, .num 0, .num 1])]
        = "route_types=0&route_types=1&route_types=2"
    ∧ buildQueryString [("x", .arr [.num 10, .num 9])] = "x=10&x=9"
    ∧ buildQueryString
        [("devid", .scalar (.str "123")), ("route_types", .arr [.num 1, .num 0]),
         ("max_results", .scalar (.num 5))]
        = "devid=123&max_results=5&route_types=0&route_types=1" :=
  ⟨fun _ => rfl, rfl, fun _ _ => rfl, fun _ _ => rfl, by decide, by decide, by decide,
    by decide, by decide, by decide⟩

/-- Claim C2: `buildSignedUrl` merges the developer id as a `devid`
parameter, canonicalizes with `buildQueryString`, signs with `signRequest`
— the uppercase-hex HMAC-SHA1 of `path?canonicalQuery` (bare path when the
query is empty), always exactly 40 uppercase hex characters — and returns
`baseUrl + path + "?" + canonicalQuery + "&signature=" + signature`, the
trailing signature not being part of the signed content; identical inputs
give byte-identical output. -/
theorem claim_C2 :
    (∀ (baseUrl path : String) (params : Params) (c : SigningCredentials),
      buildSignedUrl baseUrl path params c =
        baseUrl ++ path ++ "?"
          ++ buildQueryString (setParam params "devid" (.scalar (.str c.devId)))
          ++ "&signature="
          ++ signRequest path
              (buildQueryString (setParam params "devid" (.scalar (.str c.devId))))
              c.apiKey)
    ∧ (∀ path queryString apiKey : String,
        signRequest path queryString apiKey =
          hexUpperStr (hmacSha1 (strBytes apiKey)
            (strBytes (if queryString = "" then path else path ++ "?" ++ queryString))))
    ∧ (∀ path queryString apiKey : String,
        (signRequest path queryString apiKey).length = 40
        ∧ (signRequest path queryString apiKey).data.all isUpperHexDigit = true)
    ∧ (∀ (baseUrl path : String) (params : Params) (c : SigningCredentials),
        buildSignedUrl baseUrl path params c = buildSignedUrl baseUrl path params c) := by
  refine ⟨fun _ _ _ _ => rfl, fun _ _ _ => rfl, fun path qs key => ⟨?_, ?_⟩,
    fun _ _ _ _ => rfl⟩
  · show (hexUpperStr (hmacSha1 (strBytes key) _)).length = 40
    show (String.mk (flatMapL hexByte (hmacSha1 (strBytes key) _))).length = 40
    show (flatMapL hexByte (hmacSha1 (strBytes key) _)).length = 40
    rw [length_flatMapL_hexByte, hmacSha1_length]
  · exact all_flatMapL_hexByte _

/-- Claim C5: backoff escalation is
`backoff = (backoff == 0 ? 1000 : min(backoff * 2, maxBackoff))`; with
`maxBackoff = 60000`, three consecutive 429 responses (via the resolution
handler) yield backoff 1000, 2000, 4000, and `resetBackoff()` restores 0. -/
theorem claim_C5 :
    (∀ (maxBackoff : Int) (st : RMState),
      currentBackoff (applyBackoff maxBackoff st) =
        (if currentBackoff st = 0 then 1000 else min (currentBackoff st * 2) maxBackoff))
    ∧ currentBackoff ((handleResolve 60000 "/e" ⟨0, 0⟩ 1 ⟨429, 0⟩).1) = 1000
    ∧ currentBackoff ((handleResolve 60000 "/e"
        (handleResolve 60000 "/e" ⟨0, 0⟩ 1 ⟨429, 0⟩).1 2 ⟨429, 1⟩).1) = 2000
    ∧ currentBackoff ((handleResolve 60000 "/e"
        (handleResolve 60000 "/e"
          (handleResolve 60000 "/e" ⟨0, 0⟩ 1 ⟨429, 0⟩).1 2 ⟨429, 1⟩).1 3 ⟨429, 2⟩).1) = 4000
    ∧ currentBackoff (resetBackoff ((handleResolve 60000 "/e"
        (handleResolve 60000 "/e"
          (handleResolve 60000 "/e" ⟨0, 0⟩ 1 ⟨429, 0⟩).1 2 ⟨429, 1⟩).1 3 ⟨429, 2⟩).1)) = 0 :=
  ⟨fun _ _ => rfl, by decide, by decide, by decide, by decide⟩

/-- Claim C9: `errorFromStatus 401 ...` yields an Auth-kind error whose
`statusCode` is the hard-coded 403 of the `PTVAuthError` constructor, not
401; the 401 is not preserved in any stored field (the status is 403, the
message the fixed `"Authentication failed"`, and name/endpoint/body do not
derive from it). -/
theorem claim_C9 :
    ∀ (endpoint : String) (body : Option JVal),
      (errorFromStatus 401 endpoint body).statusCode = 403
      ∧ (errorFromStatus 401 endpoint body).statusCode ≠ 401
      ∧ (errorFromStatus 401 endpoint body).name = "PTVAuthError"
      ∧ (errorFromStatus 401 endpoint body).message = "Authentication failed"
      ∧ errorFromStatus 401 endpoint body = mkAuthError endpoint body :=
  fun _ _ => ⟨rfl, (by decide : (403 : Int) ≠ 401), rfl, rfl, rfl⟩

/-- The generic `"HTTP {status}"` message contains no `=`. -/
theorem httpMsg_no_eq (s : Int) : ∀ c ∈ ("HTTP " ++ toString s).data, c ≠ eqChar := by
  intro c hc
  rw [String.data_append] at hc
  rcases List.mem_append.mp hc with h | h
  · exact fun hce => by
      have := (by decide : eqChar ∉ ("HTTP " : String).data)
      exact this (hce ▸ h)
  · exact (intToString_benign s c h).1

/-- The timeout message contains no `=`. -/
theorem timeoutMsg_no_eq (T : Int) :
    ∀ c ∈ ("Request timed out after " ++ toString T ++ "ms").data, c ≠ eqChar := by
  intro c hc
  rw [String.data_append, String.data_append] at hc
  rcases List.mem_append.mp hc with h | h
  · rcases List.mem_append.mp h with h1 | h1
    · exact fun hce => by
        have := (by decide : eqChar ∉ ("Request timed out after " : String).data)
        exact this (hce ▸ h1)
    · exact (intToString_benign T c h1).1
  · exact fun hce => by
      have := (by decide : eqChar ∉ ("ms" : String).data)
      exact this (hce ▸ h)

/-- Claim C4: when the transport promise resolves, status 429 rejects with a
RateLimit error and escalates the backoff; status >= 500 rejects with a
Server error preserving the status and escalates the backoff; every other
status (including non-429 4xx) returns the raw response with the backoff
reset to 0 and `lastRequestTime` recorded as the current time (the handler
records `lastRequestTime = now` on every resolution). -/
theorem claim_C4 :
    ∀ (maxBackoff : Int) (endpoint : String) (st : RMState) (now : Int) (resp : RespLike),
      (resp.status = 429 →
        handleResolve maxBackoff endpoint st now resp =
          (applyBackoff maxBackoff { st with lastRequestTime := now },
            Sum.inl (mkRateLimitError endpoint none))
        ∧ (mkRateLimitError endpoint none).name = "PTVRateLimitError")
      ∧ (500 ≤ resp.status →
          handleResolve maxBackoff endpoint st now resp =
            (applyBackoff maxBackoff { st with lastRequestTime := now },
              Sum.inl (mkServerError resp.status endpoint none))
          ∧ (mkServerError resp.status endpoint none).name = "PTVServerError"
          ∧ (mkServerError resp.status endpoint none).statusCode = resp.status)
      ∧ (resp.status ≠ 429 → ¬ (500 ≤ resp.status) →
          handleResolve maxBackoff endpoint st now resp =
            ({ lastRequestTime := now, backoffMs := 0 }, Sum.inr resp)) := by
  intro maxBackoff endpoint st now resp
  refine ⟨fun h429 => ⟨?_, rfl⟩, fun h5 => ⟨?_, rfl, rfl⟩, fun hn429 hn5 => ?_⟩
  · simp only [handleResolve, if_pos h429]
  · simp only [handleResolve, if_neg (show ¬ resp.status = 429 by omega), if_pos h5]
  · simp only [handleResolve, if_neg hn429, if_neg hn5]

/-- Witness for C4 at statuses 429, 503 and 404. -/
theorem claim_C4_witness :
    handleResolve 60000 "/e" ⟨7, 500⟩ 9 ⟨429, 3⟩ =
      (applyBackoff 60000 { lastRequestTime := 9, backoffMs := 500 },
        Sum.inl (mkRateLimitError "/e" none))
    ∧ handleResolve 60000 "/e" ⟨7, 500⟩ 9 ⟨503, 3⟩ =
      (applyBackoff 60000 { lastRequestTime := 9, backoffMs := 500 },
        Sum.inl (mkServerError 503 "/e" none))
    ∧ handleResolve 60000 "/e" ⟨7, 500⟩ 9 ⟨404, 3⟩ =
      ({ lastRequestTime := 9, backoffMs := 0 }, Sum.inr ⟨404, 3⟩) :=
  ⟨((claim_C4 60000 "/e" ⟨7, 500⟩ 9 ⟨429, 3⟩).1 rfl).1,
   ((claim_C4 60000 "/e" ⟨7, 500⟩ 9 ⟨503, 3⟩).2.1 (by decide)).1,
   (claim_C4 60000 "/e" ⟨7, 500⟩ 9 ⟨404, 3⟩).2.2 (by decide) (by decide)⟩

/-- Claim C6: a timeout-guard abort is classified as a Timeout error
carrying the configured timeout; a `TypeError`-shaped transport failure is
classified as a Network error wrapping the original exception as its cause;
any other exception is rethrown unmodified; and a transport call that never
resolves under configured timeout `T` yields the Timeout-kind error
carrying `T`. -/
theorem claim_C6 :
    (∀ (endpoint : String) (T : Int),
      handleCatch endpoint T .abortExn = .ptvExn (mkTimeoutError endpoint T)
      ∧ (mkTimeoutError endpoint T).name = "PTVTimeoutError"
      ∧ (mkTimeoutError endpoint T).message =
          "Request timed out after " ++ toString T ++ "ms")
    ∧ (∀ (endpoint m : String) (T : Int),
        handleCatch endpoint T (.typeError m) =
          .ptvExn (mkNetworkError endpoint (some ("TypeError", m)))
        ∧ (mkNetworkError endpoint (some ("TypeError", m))).name = "PTVNetworkError"
        ∧ (mkNetworkError endpoint (some ("TypeError", m))).cause = some ("TypeError", m))
    ∧ (∀ (endpoint tag : String) (T : Int),
        handleCatch endpoint T (.otherExn tag) = .otherExn tag)
    ∧ (∀ (cfg : RMConfig) (endpoint : String) (st : RMState) (t0 : Int),
        (runSingle cfg endpoint st t0 .hangs).result =
          Sum.inl (.ptvExn (mkTimeoutError endpoint cfg.timeout))) := by
  refine ⟨fun endpoint T => ⟨rfl, rfl, ?_⟩, fun _ _ _ => ⟨rfl, rfl, rfl⟩,
    fun _ _ _ => rfl, fun cfg endpoint st t0 => ?_⟩
  · exact redact_id_of_no_eq _ (timeoutMsg_no_eq T)
  · unfold runSingle
    by_cases h : t0 + cfg.timeout ≤ t0 + throttleDelay cfg st t0
    · simp only [if_pos h]; rfl
    · simp only [if_neg h]; rfl

/-- Claim C8: the `errorFromStatus` classification table.  400 yields
BadRequest, 401 and 403 yield Auth, 404 yields NotFound, 429 yields
RateLimit, every status >= 500 yields Server with the status preserved, and
any other status yields the generic fallback with message `"HTTP {status}"`
and the status preserved — always attaching the (query-stripped) endpoint
and the (redacted) response body. -/
theorem claim_C8 :
    (∀ (e : String) (b : Option JVal),
      errorFromStatus 400 e b = mkBadRequestError e b
      ∧ (errorFromStatus 400 e b).name = "PTVBadRequestError"
      ∧ (errorFromStatus 400 e b).statusCode = 400
      ∧ (errorFromStatus 400 e b).endpoint = stripQuery e
      ∧ (errorFromStatus 400 e b).responseBody = b.map redactBody)
    ∧ (∀ (e : String) (b : Option JVal),
        errorFromStatus 401 e b = mkAuthError e b
        ∧ (errorFromStatus 401 e b).name = "PTVAuthError"
        ∧ (errorFromStatus 401 e b).endpoint = stripQuery e
        ∧ (errorFromStatus 401 e b).responseBody = b.map redactBody)
    ∧ (∀ (e : String) (b : Option JVal),
        errorFromStatus 403 e b = mkAuthError e b
        ∧ (errorFromStatus 403 e b).name = "PTVAuthError"
        ∧ (errorFromStatus 403 e b).endpoint = stripQuery e
        ∧ (errorFromStatus 403 e b).responseBody = b.map redactBody)
    ∧ (∀ (e : String) (b : Option JVal),
        errorFromStatus 404 e b = mkNotFoundError e b
        ∧ (errorFromStatus 404 e b).name = "PTVNotFoundError"
        ∧ (errorFromStatus 404 e b).statusCode = 404
        ∧ (errorFromStatus 404 e b).endpoint = stripQuery e
        ∧ (errorFromStatus 404 e b).responseBody = b.map redactBody)
    ∧ (∀ (e : String) (b : Option JVal),
        errorFromStatus 429 e b = mkRateLimitError e b
        ∧ (errorFromStatus 429 e b).name = "PTVRateLimitError"
        ∧ (errorFromStatus 429 e b).statusCode = 429
        ∧ (errorFromStatus 429 e b).endpoint = stripQuery e
        ∧ (errorFromStatus 429 e b).responseBody = b.map redactBody)
    ∧ (∀ (s : Int) (e : String) (b : Option JVal), 500 ≤ s →
        errorFromStatus s e b = mkServerError s e b
        ∧ (errorFromStatus s e b).name = "PTVServerError"
        ∧ (errorFromStatus s e b).statusCode = s
        ∧ (errorFromStatus s e b).endpoint = stripQuery e
        ∧ (errorFromStatus s e b).responseBody = b.map redactBody)
    ∧ (∀ (s : Int) (e : String) (b : Option JVal),
        s ≠ 400 → s ≠ 401 → s ≠ 403 → s ≠ 404 → s ≠ 429 → ¬ (500 ≤ s) →
        errorFromStatus s e b = mkPTVError ("HTTP " ++ toString s) s e b
        ∧ (errorFromStatus s e b).name = "PTVError"
        ∧ (errorFromStatus s e b).statusCode = s
        ∧ (errorFromStatus s e b).message = "HTTP " ++ toString s
        ∧ (errorFromStatus s e b).endpoint = stripQuery e
        ∧ (errorFromStatus s e b).responseBody = b.map redactBody) := by
  refine ⟨fun e b => ⟨rfl, rfl, rfl, rfl, rfl⟩, fun e b => ⟨rfl, rfl, rfl, rfl⟩,
    fun e b => ⟨rfl, rfl, rfl, rfl⟩, fun e b => ⟨rfl, rfl, rfl, rfl, rfl⟩,
    fun e b => ⟨rfl, rfl, rfl, rfl, rfl⟩, fun s e b h5 => ?_, fun s e b h0 h1 h3 h4 h9 h5 => ?_⟩
  · have hs : errorFromStatus s e b = mkServerError s e b := by
      simp only [errorFromStatus, if_neg (show ¬ s = 400 by omega),
        if_neg (show ¬ (s = 401 ∨ s = 403) by omega),
        if_neg (show ¬ s = 404 by omega), if_neg (show ¬ s = 429 by omega), if_pos h5]
    exact ⟨hs, by rw [hs]; rfl, by rw [hs]; rfl, by rw [hs]; rfl, by rw [hs]; rfl⟩
  · have hs : errorFromStatus s e b = mkPTVError ("HTTP " ++ toString s) s e b := by
      simp only [errorFromStatus, if_neg h0,
        if_neg (show ¬ (s = 401 ∨ s = 403) by omega),
        if_neg h4, if_neg h9, if_neg h5]
    refine ⟨hs, by rw [hs]; rfl, by rw [hs]; rfl, ?_, by rw [hs]; rfl, by rw [hs]; rfl⟩
    rw [hs]
    exact redact_id_of_no_eq _ (httpMsg_no_eq s)

/-- Witness for C8 at statuses 503 (server branch) and 418 (generic). -/
theorem claim_C8_witness :
    (errorFromStatus 503 "/v3/x" none).statusCode = 503
    ∧ (errorFromStatus 503 "/v3/x" none).name = "PTVServerError"
    ∧ (errorFromStatus 418 "/v3/x" none).message = "HTTP 418"
    ∧ (errorFromStatus 418 "/v3/x" none).statusCode = 418 :=
  ⟨((claim_C8.2.2.2.2.2.1 503 "/v3/x" none (by decide)).2.2.1),
   ((claim_C8.2.2.2.2.2.1 503 "/v3/x" none (by decide)).2.1),
   ((claim_C8.2.2.2.2.2.2 418 "/v3/x" none (by decide) (by decide) (by decide)
      (by decide) (by decide) (by decide)).2.2.2.1),
   ((claim_C8.2.2.2.2.2.2 418 "/v3/x" none (by decide) (by decide) (by decide)
      (by decide) (by decide) (by decide)).2.2.1)⟩

/-! ### Scrub-pass lemmas for the redaction claims -/

/-- `scrubGo` with no fuel is the identity. -/
theorem scrubGo_zero (key l : List Char) : scrubGo key 0 l = l := by
  cases l <;> rfl

/-- `scrubGo` on the empty list. -/
theorem scrubGo_nil (key : List Char) (fuel : Nat) : scrubGo key fuel [] = [] := by
  cases fuel <;> rfl

/-- One step of `scrubGo` at a match. -/
theorem scrubGo_step_match (key : List Char) (fuel : Nat) (c : Char) (rest : List Char)
    (h : tryKey key (c :: rest) = true) :
    scrubGo key (fuel + 1) (c :: rest) =
      (c :: rest).take key.length ++ eqChar :: "[REDACTED]".data ++
        scrubGo key fuel
          (((c :: rest).drop (key.length + 1)).dropWhile (fun x => !(x == ampChar))) := by
  rw [scrubGo, if_pos h]

/-- One step of `scrubGo` at a non-match. -/
theorem scrubGo_step_skip (key : List Char) (fuel : Nat) (c : Char) (rest : List Char)
    (h : tryKey key (c :: rest) = false) :
    scrubGo key (fuel + 1) (c :: rest) = c :: scrubGo key fuel rest := by
  rw [scrubGo, if_neg (by simp [h])]

/-- Scrubbing introduces no `&` when the input has none. -/
theorem scrubGo_amp_free (key : List Char) :
    ∀ (fuel : Nat) (l : List Char), ampChar ∉ l → ampChar ∉ scrubGo key fuel l := by
  intro fuel
  induction fuel with
  | zero => intro l h; rw [scrubGo_zero]; exact h
  | succ fuel ih =>
    intro l h
    cases l with
    | nil => rw [scrubGo_nil]; exact h
    | cons c rest =>
      by_cases ht : tryKey key (c :: rest) = true
      · rw [scrubGo_step_match key fuel c rest ht]
        intro hmem
        simp only [List.mem_append, List.mem_cons] at hmem
        rcases hmem with (h1 | (h1 | h1)) | h1
        · exact h (List.take_subset _ _ h1)
        · exact absurd h1 (by decide)
        · exact absurd h1 (by decide)
        · have hX : ampChar ∉
              ((c :: rest).drop (key.length + 1)).dropWhile (fun x => !(x == ampChar)) := by
            intro hm
            exact h (List.drop_subset _ _ ((List.dropWhile_sublist _).subset hm))
          exact (ih _ hX) h1
      · rw [scrubGo_step_skip key fuel c rest (by simpa using ht)]
        intro hmem
        rcases List.mem_cons.mp hmem with h1 | h1
        · exact h (h1 ▸ List.mem_cons_self c rest)
        · exact (ih rest (fun hm => h (List.mem_cons_of_mem c hm))) h1

/-- `scrubGo` passes over a prefix whose characters all differ (case
insensitively) from the key's first character. -/
theorem scrubGo_skip_pre (k0 : Char) (ks : List Char) :
    ∀ (pre s : List Char), (∀ c ∈ pre, (k0.toLower == c.toLower) = false) →
      scrubGo (k0 :: ks) (pre.length + s.length) (pre ++ s) =
        pre ++ scrubGo (k0 :: ks) s.length s := by
  intro pre
  induction pre with
  | nil => intro s _; simp only [List.length_nil, Nat.zero_add, List.nil_append]
  | cons c pre ih =>
    intro s h
    have hlen : (c :: pre).length + s.length = (pre.length + s.length) + 1 := by
      simp only [List.length_cons]; omega
    rw [List.cons_append, hlen,
      scrubGo_step_skip _ _ _ _ (by
        simp only [tryKey, ciMatch, h c (List.mem_cons_self c pre), Bool.false_and]),
      ih s (fun d hd => h d (List.mem_cons_of_mem c hd))]
    rfl

/-- Characters of a `&`-free list all satisfy the scan predicate. -/
theorem dropWhile_amp_free (l : List Char) (h : ampChar ∉ l) :
    l.dropWhile (fun x => !(x == ampChar)) = [] := by
  rw [List.dropWhile_eq_nil_iff]
  intro x hx
  have : x ≠ ampChar := fun he => h (he ▸ hx)
  simpa using this

/-- `redactChars` is the explicit five-pass chain. -/
theorem redactChars_chain (l : List Char) :
    redactChars l =
      scrubPass "api_key".data (scrubPass "key".data (scrubPass "apikey".data
        (scrubPass "signature".data (scrubPass "devid".data l)))) := rfl

/-- `redactCredentials` on `devid=<secret>` for a `&`-free secret: the
first pass replaces the entire value, the remaining four passes leave the
concrete result unchanged. -/
theorem redact_devid_case (secret : String) (h : ampChar ∉ secret.data) :
    redactCredentials ("devid=" ++ secret) = "devid=[REDACTED]" := by
  have hstep : scrubPass "devid".data ("devid=".data ++ secret.data) =
      "devid=[REDACTED]".data := by
    unfold scrubPass
    have h6 : ("devid=".data).length = 6 := rfl
    have hlen : ("devid=".data ++ secret.data).length = (5 + secret.data.length) + 1 := by
      rw [List.length_append, h6]; omega
    have htry : tryKey "devid".data ('d' :: ("evid=".data ++ secret.data)) = true := rfl
    rw [hlen, show ("devid=".data ++ secret.data) = 'd' :: ("evid=".data ++ secret.data)
      from rfl, scrubGo_step_match _ _ _ _ htry,
      show ('d' :: ("evid=".data ++ secret.data)).take ("devid".data).length = "devid".data
        from rfl,
      show ('d' :: ("evid=".data ++ secret.data)).drop (("devid".data).length + 1) =
        secret.data from rfl,
      dropWhile_amp_free secret.data h, scrubGo_nil]
    decide
  unfold redactCredentials
  rw [String.data_append, redactChars_chain, hstep]
  decide

/-- `redactCredentials` on `signature=<secret>` for a `&`-free secret: the
`devid` pass skips the `signature=` prefix and can only rewrite inside the
(`&`-free) secret, after which the `signature` pass replaces the whole
remaining value; the final three passes leave the concrete result
unchanged. -/
theorem redact_signature_case (secret : String) (h : ampChar ∉ secret.data) :
    redactCredentials ("signature=" ++ secret) = "signature=[REDACTED]" := by
  have hpass1 : scrubPass "devid".data ("signature=".data ++ secret.data) =
      "signature=".data ++ scrubGo "devid".data secret.data.length secret.data := by
    unfold scrubPass
    rw [List.length_append]
    exact scrubGo_skip_pre 'd' "evid".data "signature=".data secret.data (by decide)
  have hamp : ampChar ∉ scrubGo "devid".data secret.data.length secret.data :=
    scrubGo_amp_free "devid".data secret.data.length secret.data h
  have hpass2 : scrubPass "signature".data
      ("signature=".data ++ scrubGo "devid".data secret.data.length secret.data) =
      "signature=[REDACTED]".data := by
    set T := scrubGo "devid".data secret.data.length secret.data with hT
    unfold scrubPass
    have h10 : ("signature=".data).length = 10 := rfl
    have hlen : ("signature=".data ++ T).length = (9 + T.length) + 1 := by
      rw [List.length_append, h10]; omega
    have htry : tryKey "signature".data ('s' :: ("ignature=".data ++ T)) = true := rfl
    rw [hlen, show ("signature=".data ++ T) = 's' :: ("ignature=".data ++ T) from rfl,
      scrubGo_step_match _ _ _ _ htry,
      show ('s' :: ("ignature=".data ++ T)).take ("signature".data).length =
        "signature".data from rfl,
      show ('s' :: ("ignature=".data ++ T)).drop (("signature".data).length + 1) = T
        from rfl,
      dropWhile_amp_free T hamp, scrubGo_nil]
    decide
  unfold redactCredentials
  rw [String.data_append, redactChars_chain, hpass1, hpass2]
  decide

/-- Counterexample to claim C7 as stated: the error constructed with message
`"devid=s3cr3t&echo=s3cr3t"` — which contains `devid=<secret>` for the
`&`-free secret `"s3cr3t"` — stores a message that still contains the
original secret substring (the occurrence after `&echo=` is not a match of
any redaction pattern), although the placeholder is present. -/
theorem claim_C7_counterexample :
    strContains "devid=s3cr3t&echo=s3cr3t" ("devid=" ++ "s3cr3t") = true
    ∧ strContains "s3cr3t" "&" = false
    ∧ (mkPTVError "devid=s3cr3t&echo=s3cr3t" 400 "/v3/stops" none).message =
        "devid=[REDACTED]&echo=s3cr3t"
    ∧ strContains (mkPTVError "devid=s3cr3t&echo=s3cr3t" 400 "/v3/stops" none).message
        "s3cr3t" = true :=
  ⟨rfl, rfl, rfl, rfl⟩

/-- Claim C7 (amended): for a constructed error whose message or string body
contains `devid=<secret>` or `signature=<secret>` where `<secret>` is the
maximal `&`-free run following the key, the stored message/body replaces
that run with the fixed placeholder, keeping the key name visible (other
occurrences of the same substring elsewhere in the text are not removed);
for an object body, redaction serializes to JSON, scrubs, and parses back,
and when that round-trip fails the original body is stored unscrubbed
rather than the constructor raising. -/
theorem claim_C7 :
    (∀ secret : String, ampChar ∉ secret.data →
      (mkPTVError ("devid=" ++ secret) 400 "/e" none).message = "devid=[REDACTED]"
      ∧ (mkPTVError ("signature=" ++ secret) 400 "/e" none).message = "signature=[REDACTED]"
      ∧ redactBody (.str ("devid=" ++ secret)) = .str "devid=[REDACTED]"
      ∧ redactBody (.str ("signature=" ++ secret)) = .str "signature=[REDACTED]")
    ∧ redactBody (.obj [("a", .str "devid=x")]) = .obj [("a", .str "devid=x")]
    ∧ jsonParse (redactChars (jsonStringify (.obj [("a", .str "devid=x")]))) = none
    ∧ redactBody (.obj [("a", .str "devid=x&b=1")]) =
        .obj [("a", .str "devid=[REDACTED]&b=1")] := by
  refine ⟨fun secret h => ⟨?_, ?_, ?_, ?_⟩, rfl, rfl, rfl⟩
  · exact redact_devid_case secret h
  · exact redact_signature_case secret h
  · exact congrArg JVal.str (redact_devid_case secret h)
  · exact congrArg JVal.str (redact_signature_case secret h)

/-- Witness for the amended C7 at the concrete secret `"s3cr3t"`. -/
theorem claim_C7_witness :
    (mkPTVError ("devid=" ++ "s3cr3t") 400 "/e" none).message = "devid=[REDACTED]"
    ∧ (mkPTVError ("signature=" ++ "s3cr3t") 400 "/e" none).message =
        "signature=[REDACTED]" :=
  ⟨(claim_C7.1 "s3cr3t" (by decide)).1, (claim_C7.1 "s3cr3t" (by decide)).2.1⟩

/-- Counterexample to claim C10 as stated: with `minInterval = 200`,
no backoff, timeout 100 and no elapsed time since the last request, the
pending throttle delay (200ms) reaches the timeout; the request does reject
with the Timeout error — but the transport function is still physically
invoked once (after the wait, with an already-aborted signal), contradicting
"without any physical transport invocation ever being made". -/
theorem claim_C10_counterexample :
    (runSingle ⟨200, 60000, 100⟩ "/e" ⟨1000, 0⟩ 1000 .hangs).result =
      Sum.inl (.ptvExn (mkTimeoutError "/e" 100))
    ∧ (runSingle ⟨200, 60000, 100⟩ "/e" ⟨1000, 0⟩ 1000 .hangs).transportInvoked = true :=
  ⟨rfl, rfl⟩

/-- Claim C10 (amended): the per-request timeout timer is started before the
throttle/backoff wait — the abort signal fires `timeout` ms after
processing of a new URL begins — so throttle/backoff waiting counts against
the timeout, and a request whose pending `minInterval + backoff` delay
reaches the configured timeout rejects with the Timeout error; the
transport function is nevertheless still invoked exactly once, at the end of
the full throttle wait, with an already-aborted signal (so the native fetch
performs no network activity and rejects immediately). -/
theorem claim_C10 :
    ∀ (cfg : RMConfig) (endpoint : String) (st : RMState) (t0 : Int) (tb : TransportB),
      cfg.timeout ≤ throttleDelay cfg st t0 →
      (runSingle cfg endpoint st t0 tb).result =
        Sum.inl (.ptvExn (mkTimeoutError endpoint cfg.timeout))
      ∧ (runSingle cfg endpoint st t0 tb).transportInvoked = true
      ∧ (runSingle cfg endpoint st t0 tb).fetchAt = t0 + throttleDelay cfg st t0 := by
  intro cfg endpoint st t0 tb h
  have hc : t0 + cfg.timeout ≤ t0 + throttleDelay cfg st t0 := by omega
  unfold runSingle
  simp only [if_pos hc]
  trivial

/-- Witness for the amended C10 at a concrete configuration
(`minInterval = 200`, `timeout = 100`, just-dispatched state). -/
theorem claim_C10_witness :
    (runSingle ⟨200, 60000, 100⟩ "/w" ⟨1000, 0⟩ 1000 .hangs).result =
      Sum.inl (.ptvExn (mkTimeoutError "/w" 100))
    ∧ (runSingle ⟨200, 60000, 100⟩ "/w" ⟨1000, 0⟩ 1000 .hangs).transportInvoked = true :=
  ⟨(claim_C10 ⟨200, 60000, 100⟩ "/w" ⟨1000, 0⟩ 1000 .hangs (by decide)).1,
   (claim_C10 ⟨200, 60000, 100⟩ "/w" ⟨1000, 0⟩ 1000 .hangs (by decide)).2.1⟩

/-! ### Lookup lemmas for the dedup model -/

/-- Updating caller `i` makes its lookup yield the new phase. -/
theorem lookup_updCaller_self (i : Nat) (ph : Phase) :
    ∀ (cs : List (Nat × Phase)) (x : Phase), cs.lookup i = some x →
      (updCaller cs i ph).lookup i = some ph := by
  intro cs
  induction cs with
  | nil => intro x h; cases h
  | cons e cs ih =>
    obtain ⟨k, v⟩ := e
    intro x h
    by_cases hk : k = i
    · subst hk
      simp [updCaller, List.lookup_cons]
    · have h1 : (i == k) = false := beq_eq_false_iff_ne.mpr (Ne.symm hk)
      have h2 : (k == i) = false := beq_eq_false_iff_ne.mpr hk
      simp only [List.lookup_cons, h1] at h
      simp only [updCaller, List.map_cons, h2, Bool.false_eq_true, ite_false,
        List.lookup_cons, h1]
      exact ih x h

/-- Updating caller `j` does not change caller `i ≠ j`. -/
theorem lookup_updCaller_ne (i j : Nat) (ph : Phase) (hij : i ≠ j) :
    ∀ cs : List (Nat × Phase), (updCaller cs j ph).lookup i = cs.lookup i := by
  intro cs
  induction cs with
  | nil => rfl
  | cons e cs ih =>
    obtain ⟨k, v⟩ := e
    have hcons : updCaller ((k, v) :: cs) j ph =
        (if (k == j) = true then ((k : Nat), ph) else (k, v)) :: updCaller cs j ph := rfl
    rw [hcons]
    by_cases hkj : k = j
    · have hb : (k == j) = true := beq_iff_eq.mpr hkj
      rw [if_pos hb]
      have h1 : (i == k) = false := beq_eq_false_iff_ne.mpr (hkj ▸ hij)
      rw [List.lookup_cons, List.lookup_cons, h1]
      exact ih
    · have hb : (k == j) = false := beq_eq_false_iff_ne.mpr hkj
      rw [if_neg (by simp [hb])]
      by_cases hik : i = k
      · subst hik
        rw [List.lookup_cons, List.lookup_cons, beq_self_eq_true]
      · have h1 : (i == k) = false := beq_eq_false_iff_ne.mpr hik
        rw [List.lookup_cons, List.lookup_cons, h1]
        exact ih

/-- Filtering out promise `q` keeps a lookup that maps to `p ≠ q`. -/
theorem lookup_filter_ne_pid (u : String) (q : Nat) :
    ∀ (l : List (String × Nat)) (p : Nat), l.lookup u = some p → p ≠ q →
      (l.filter (fun e => !(e.2 == q))).lookup u = some p := by
  intro l
  induction l with
  | nil => intro p h; cases h
  | cons e l ih =>
    obtain ⟨k, v⟩ := e
    intro p h hpq
    by_cases hk : u = k
    · subst hk
      have h1 : (u == u) = true := beq_self_eq_true u
      simp only [List.lookup_cons, h1] at h
      have hv : v = p := Option.some.inj h
      subst hv
      have hkeep : (!(v == q)) = true := by simpa using hpq
      simp [List.filter_cons, hkeep, List.lookup_cons]
    · have h1 : (u == k) = false := beq_eq_false_iff_ne.mpr hk
      simp only [List.lookup_cons, h1] at h
      by_cases hkeep : (v == q) = true
      · simp only [List.filter_cons, hkeep, Bool.not_true, Bool.false_eq_true, ite_false]
        exact ih p h hpq
      · have hkeep' : (!(v == q)) = true := by simpa using hkeep
        simp only [List.filter_cons, hkeep', if_pos, List.lookup_cons, h1]
        exact ih p h hpq

/-- After filtering out promise `q`, no URL maps to `q`. -/
theorem lookup_filter_not_pid (u : String) (q : Nat) :
    ∀ (l : List (String × Nat)) (v : Nat),
      (l.filter (fun e => !(e.2 == q))).lookup u = some v → v ≠ q := by
  intro l
  induction l with
  | nil => intro v h; cases h
  | cons e l ih =>
    obtain ⟨k, w⟩ := e
    intro v h
    by_cases hw : (w == q) = true
    · simp only [List.filter_cons, hw, Bool.not_true, Bool.false_eq_true, ite_false] at h
      exact ih v h
    · have hw' : (!(w == q)) = true := by simpa using hw
      simp only [List.filter_cons, hw', if_pos] at h
      by_cases hk : u = k
      · subst hk
        simp only [List.lookup_cons, beq_self_eq_true] at h
        have : w = v := Option.some.inj h
        subst this
        simpa using hw
      · have h1 : (u == k) = false := beq_eq_false_iff_ne.mpr hk
        simp only [List.lookup_cons, h1] at h
        exact ih v h

/-! ### Step-inversion lemmas for the dedup claims -/

/-- If a caller invoking `u` moves while `u` is in flight, its step was the
join: no new transport call is logged and the caller attaches to the
existing promise, reading a clone. -/
theorem step_join_dedup (s s' : Sys) (i : Nat) (u : String) (p : Nat)
    (hst : Step s s') (hc : s.callers.lookup i = some (.toCall u))
    (hf : s.inFlight.lookup u = some p)
    (hmoved : s'.callers.lookup i ≠ some (.toCall u)) :
    s'.calls = s.calls ∧ s'.callers.lookup i = some (.waiting p true) := by
  cases hst with
  | join j u' p' hc' hf' =>
    by_cases hji : j = i
    · subst hji
      have huu : u' = u := Phase.toCall.inj (Option.some.inj (hc'.symm.trans hc))
      subst huu
      have hpp : p' = p := Option.some.inj (hf'.symm.trans hf)
      refine ⟨rfl, ?_⟩
      show List.lookup j (updCaller s.callers j (Phase.waiting p' true)) =
        some (Phase.waiting p true)
      rw [← hpp]
      exact lookup_updCaller_self j (.waiting p' true) s.callers _ hc
    · exact absurd ((lookup_updCaller_ne i j _ (fun h => hji h.symm) s.callers).trans hc)
        hmoved
  | fresh j u' hc' hf' =>
    by_cases hji : j = i
    · subst hji
      have huu : u' = u := Phase.toCall.inj (Option.some.inj (hc'.symm.trans hc))
      subst huu
      rw [hf] at hf'
      cases hf'
    · exact absurd ((lookup_updCaller_ne i j _ (fun h => hji h.symm) s.callers).trans hc)
        hmoved
  | settle q o hq hs0 => exact absurd hc hmoved
  | resume j q c o hc' hs' =>
    by_cases hji : j = i
    · subst hji
      exact Phase.noConfusion (Option.some.inj (hc'.symm.trans hc))
    · exact absurd ((lookup_updCaller_ne i j _ (fun h => hji h.symm) s.callers).trans hc)
        hmoved

/-- If a caller invoking `u` moves while `u` is not in flight, its step was
the fresh dispatch: exactly one new transport call is logged and the caller
owns the new promise. -/
theorem step_fresh_dispatch (s s' : Sys) (i : Nat) (u : String)
    (hst : Step s s') (hc : s.callers.lookup i = some (.toCall u))
    (hf : s.inFlight.lookup u = none)
    (hmoved : s'.callers.lookup i ≠ some (.toCall u)) :
    s'.calls = s.calls ++ [(s.nextP, u)]
    ∧ s'.callers.lookup i = some (.waiting s.nextP false) := by
  cases hst with
  | join j u' p' hc' hf' =>
    by_cases hji : j = i
    · subst hji
      have huu : u' = u := Phase.toCall.inj (Option.some.inj (hc'.symm.trans hc))
      subst huu
      rw [hf] at hf'
      cases hf'
    · exact absurd ((lookup_updCaller_ne i j _ (fun h => hji h.symm) s.callers).trans hc)
        hmoved
  | fresh j u' hc' hf' =>
    by_cases hji : j = i
    · subst hji
      have huu : u' = u := Phase.toCall.inj (Option.some.inj (hc'.symm.trans hc))
      subst huu
      exact ⟨rfl, lookup_updCaller_self j (.waiting s.nextP false) s.callers _ hc⟩
    · exact absurd ((lookup_updCaller_ne i j _ (fun h => hji h.symm) s.callers).trans hc)
        hmoved
  | settle q o hq hs0 => exact absurd hc hmoved
  | resume j q c o hc' hs' =>
    by_cases hji : j = i
    · subst hji
      exact Phase.noConfusion (Option.some.inj (hc'.symm.trans hc))
    · exact absurd ((lookup_updCaller_ne i j _ (fun h => hji h.symm) s.callers).trans hc)
        hmoved

/-- An in-flight entry disappears in one step exactly when its promise
settles in that step (newly: it was pending before, settled after). -/
theorem step_remove_iff_settle (s s' : Sys) (u : String) (p : Nat)
    (hst : Step s s') (hin : s.inFlight.lookup u = some p)
    (hout : s'.inFlight.lookup u ≠ some p) :
    s.settled.lookup p = none ∧ s'.settled.lookup p ≠ none := by
  cases hst with
  | join j u' p' _ _ => exact absurd hin hout
  | resume j q c o _ _ => exact absurd hin hout
  | fresh j u' hc' hf' =>
    exfalso
    by_cases huu : u = u'
    · subst huu
      rw [hin] at hf'
      cases hf'
    · have h1 : (u == u') = false := beq_eq_false_iff_ne.mpr huu
      exact hout (by
        show List.lookup u ((u', s.nextP) :: s.inFlight) = some p
        rw [List.lookup_cons, h1]
        exact hin)
  | settle q o hq hs0 =>
    by_cases hpq : p = q
    · subst hpq
      refine ⟨hs0, ?_⟩
      show List.lookup p ((p, o) :: s.settled) ≠ none
      rw [List.lookup_cons, beq_self_eq_true]
      exact fun h => Option.noConfusion h
    · exact absurd (lookup_filter_ne_pid u q s.inFlight p hin hpq) hout

/-- When a promise newly settles in one step, every in-flight entry for it
is removed in that same step. -/
theorem step_settle_clears (s s' : Sys) (p : Nat)
    (hst : Step s s') (h0 : s.settled.lookup p = none)
    (h1 : s'.settled.lookup p ≠ none) :
    ∀ u, s'.inFlight.lookup u ≠ some p := by
  cases hst with
  | join j u' p' _ _ => exact absurd h0 h1
  | fresh j u' _ _ => exact absurd h0 h1
  | resume j q c o _ _ => exact absurd h0 h1
  | settle q o hq hs0 =>
    by_cases hpq : p = q
    · subst hpq
      intro u hu
      exact lookup_filter_not_pid u p s.inFlight p hu rfl
    · exfalso
      apply h1
      show List.lookup p ((q, o) :: s.settled) = none
      rw [List.lookup_cons, beq_eq_false_iff_ne.mpr hpq]
      exact h0

/-- Claim C3: while a URL is in flight, a further `execute` for it performs
no new physical transport invocation and attaches to the shared promise,
reading a clone; the in-flight entry is removed exactly when the shared
promise settles; an `execute` for a URL not in flight performs exactly one
new physical invocation; and in the concrete interleaving, two concurrent
callers of one URL produce exactly one transport call, both finish with
independently readable results, and a third caller arriving after
settlement triggers a fresh physical call. -/
theorem claim_C3 :
    (∀ (s s' : Sys) (i : Nat) (u : String) (p : Nat),
      Step s s' → s.callers.lookup i = some (.toCall u) →
      s.inFlight.lookup u = some p → s'.callers.lookup i ≠ some (.toCall u) →
      s'.calls = s.calls ∧ s'.callers.lookup i = some (.waiting p true))
    ∧ (∀ (s s' : Sys) (i : Nat) (u : String),
        Step s s' → s.callers.lookup i = some (.toCall u) →
        s.inFlight.lookup u = none → s'.callers.lookup i ≠ some (.toCall u) →
        s'.calls = s.calls ++ [(s.nextP, u)]
        ∧ s'.callers.lookup i = some (.waiting s.nextP false))
    ∧ (∀ (s s' : Sys) (u : String) (p : Nat),
        Step s s' → s.inFlight.lookup u = some p → s'.inFlight.lookup u ≠ some p →
        s.settled.lookup p = none ∧ s'.settled.lookup p ≠ none)
    ∧ (∀ (s s' : Sys) (p : Nat),
        Step s s' → s.settled.lookup p = none → s'.settled.lookup p ≠ none →
        ∀ u, s'.inFlight.lookup u ≠ some p)
    ∧ (Step demoS0 demoS1 ∧ Step demoS1 demoS2 ∧ Step demoS2 demoS3
       ∧ Step demoS3 demoS4 ∧ Step demoS4 demoS5 ∧ Step demoS5 demoS6)
    ∧ demoS5.calls = [(0, demoUrl)]
    ∧ demoS5.callers.lookup 1 = some (.finished (.ok 7) false)
    ∧ demoS5.callers.lookup 2 = some (.finished (.ok 7) true)
    ∧ demoS6.calls = [(0, demoUrl), (1, demoUrl)] :=
  ⟨step_join_dedup, step_fresh_dispatch, step_remove_iff_settle, step_settle_clears,
    ⟨Step.fresh demoS0 1 demoUrl rfl rfl,
     Step.join demoS1 2 demoUrl 0 rfl rfl,
     Step.settle demoS2 0 (.ok 7) (by decide) rfl,
     Step.resume demoS3 1 0 false (.ok 7) rfl rfl,
     Step.resume demoS4 2 0 true (.ok 7) rfl rfl,
     Step.fresh demoS5 3 demoUrl rfl rfl⟩,
    rfl, rfl, rfl, rfl⟩

/-- Witness for C3: the universally quantified dedup facts instantiated on
the concrete trace — caller 2's join adds no transport call, caller 3's
fresh dispatch adds exactly one, and the settle transition of promise 0 is
exactly where the in-flight entry disappears. -/
theorem claim_C3_witness :
    (demoS2.calls = demoS1.calls
      ∧ demoS2.callers.lookup 2 = some (.waiting 0 true))
    ∧ (demoS6.calls = demoS5.calls ++ [(demoS5.nextP, demoUrl)]
      ∧ demoS6.callers.lookup 3 = some (.waiting demoS5.nextP false))
    ∧ (demoS2.settled.lookup 0 = none ∧ demoS3.settled.lookup 0 ≠ none)
    ∧ (∀ u, demoS3.inFlight.lookup u ≠ some 0) :=
  ⟨claim_C3.1 demoS1 demoS2 2 demoUrl 0 (Step.join demoS1 2 demoUrl 0 rfl rfl)
      rfl rfl (by decide),
   claim_C3.2.1 demoS5 demoS6 3 demoUrl (Step.fresh demoS5 3 demoUrl rfl rfl)
      rfl rfl (by decide),
   claim_C3.2.2.1 demoS2 demoS3 demoUrl 0 (Step.settle demoS2 0 (.ok 7) (by decide) rfl)
      rfl (by decide),
   claim_C3.2.2.2.1 demoS2 demoS3 0 (Step.settle demoS2 0 (.ok 7) (by decide) rfl)
      rfl (by decide)⟩
